import Mathlib

/-!
Verification development for the openlink social-media app.

The pagination routes (`src/app/api/posts/for-you`, `posts/following`,
`posts/bookmarked`, `notifications`, `posts/[postId]/comments`) all follow the
same shape: fetch `pageSize + 1` ordered rows through the ORM's `findMany`
with an (inclusive) `cursor` argument and a positive `take` (negative
`take: -pageSize - 1` for comments), detect the probe row, slice it off, and
return the boundary cursor.  The client components (`LikeButton`,
`FollowButton`, `BookmarkButton`, `useDeletePostMutation`) manipulate the
react-query cache with optimistic writes and rollback.

Rows are modelled with a numeric primary key `id` and an integer ordering key
`createdAt`; a query's match set is modelled as the list of matching rows
already arranged in the storage order requested by `orderBy` (descending
`createdAt` for the four feeds, ascending for comments).
-/

namespace OpenLink

/-- A database row as seen by a paginated query: primary key plus the
`createdAt` ordering key. -/
structure Row where
  id : Nat
  createdAt : Int
deriving DecidableEq, Repr

/-- Mirror of the `PostsPage` interface of `src/lib/types.ts`
(`{ posts, nextCursor }`); also the shape of `NotificationsPage`. -/
structure PostsPage where
  posts : List Row
  nextCursor : Option Nat
deriving DecidableEq, Repr

/-- Mirror of the `CommentsPage` interface of `src/lib/types.ts`
(`{ comments, previousCursor }`). -/
structure CommentsPage where
  comments : List Row
  previousCursor : Option Nat
deriving DecidableEq, Repr

/-- The ORM's `findMany` with a positive `take n` over an ordered match set.
The `cursor` argument positions the result at the row whose id equals the
cursor, inclusively (the routes pass no `skip`), and `take n` keeps the
first `n` rows from that position.  Without a cursor the result is the first
`n` rows. -/
def findManyAfter (rows : List Row) (cursor : Option Nat) (n : Nat) : List Row :=
  match cursor with
  | none => rows.take n
  | some c => (rows.dropWhile (fun r => r.id != c)).take n

/-- The last `n` elements of a list (the ORM returns the tail of the result
set, still in the stated order, when `take` is negative). -/
def takeLast (l : List Row) (n : Nat) : List Row :=
  l.drop (l.length - n)

/-- The ORM's `findMany` with a negative `take` (`take: -n`), as used by the
comments route: the result is the last `n` rows of the ordered match set
ending at the cursor row, inclusively; without a cursor, the last `n` rows
overall. -/
def findManyBefore (rows : List Row) (cursor : Option Nat) (n : Nat) : List Row :=
  match cursor with
  | none => takeLast rows n
  | some c =>
    match rows.dropWhile (fun r => r.id != c) with
    | [] => []
    | r :: _ => takeLast (rows.takeWhile (fun x => x.id != c) ++ [r]) n

/-- The common GET body of the four descending feeds
(`for-you/route.ts`, `following/route.ts`, `bookmarked/route.ts`,
`notifications/route.ts`): fetch `pageSize + 1` rows,
`nextCursor = posts.length > pageSize ? posts[pageSize].id : null`,
return `posts.slice(0, pageSize)`. -/
def paginateGET (db : List Row) (cursor : Option Nat) (pageSize : Nat) : PostsPage :=
  let posts := findManyAfter db cursor (pageSize + 1)
  { posts := posts.take pageSize
    nextCursor := if pageSize < posts.length then posts[pageSize]?.map Row.id else none }

/-- The GET body of `posts/[postId]/comments/route.ts` with its
`take: -pageSize - 1` fetch over the ascending comment list:
`previousCursor = comments.length > pageSize ? comments[0].id : null` and
`comments = comments.length > pageSize ? comments.slice(1) : comments`. -/
def commentsPaginate (db : List Row) (cursor : Option Nat) (pageSize : Nat) : CommentsPage :=
  let comments := findManyBefore db cursor (pageSize + 1)
  { comments := if pageSize < comments.length then comments.drop 1 else comments
    previousCursor := if pageSize < comments.length then comments.head?.map Row.id else none }

/-- `GET /api/posts/for-you` over its ordered match set (pageSize 10). -/
def forYouGET (db : List Row) (cursor : Option Nat) : PostsPage :=
  paginateGET db cursor 10

/-- `GET /api/posts/following` over its ordered match set (pageSize 10). -/
def followingGET (db : List Row) (cursor : Option Nat) : PostsPage :=
  paginateGET db cursor 10

/-- `GET /api/posts/bookmarked` over the user's ordered bookmark list
(pageSize 10). -/
def bookmarkedGET (db : List Row) (cursor : Option Nat) : PostsPage :=
  paginateGET db cursor 10

/-- `GET /api/notifications` over the recipient's ordered notification list
(pageSize 10). -/
def notificationsGET (db : List Row) (cursor : Option Nat) : PostsPage :=
  paginateGET db cursor 10

/-- `GET /api/posts/[postId]/comments` over the post's ascending comment list
(pageSize 5). -/
def commentsGET (db : List Row) (cursor : Option Nat) : CommentsPage :=
  commentsPaginate db cursor 5

/-- The cursor-chain a client performs: request a page, and while the
returned `nextCursor` is non-null, request again with it.  `fuel` bounds the
recursion; any `fuel ≥ db.length` is enough. -/
def chainPages (db : List Row) (pageSize : Nat) : Nat → Option Nat → List (List Row)
  | 0, _ => []
  | fuel + 1, cursor =>
    let page := paginateGET db cursor pageSize
    match page.nextCursor with
    | none => [page.posts]
    | some c => page.posts :: chainPages db pageSize fuel (some c)

/-- `cursor` designates position `k` of the ordered match set: either no
cursor and the start of the list, or the id of the row at index `k`. -/
def cursorAt (db : List Row) (cursor : Option Nat) (k : Nat) : Prop :=
  (cursor = none ∧ k = 0) ∨ (k < db.length ∧ cursor = db[k]?.map Row.id)

instance (db : List Row) (cursor : Option Nat) (k : Nat) : Decidable (cursorAt db cursor k) := by
  unfold cursorAt
  infer_instance

/-! ## Client-side cache model (react-query)

A cache entry for one query key is `Option α`: `none` when `getQueryData`
would yield `undefined`.  `setQueryData` with an `undefined` value performs
no update (react-query skips the write when the resolved value is
`undefined`); with a defined value it replaces the entry. -/

/-- `queryClient.setQueryData` for a single entry: writing `undefined`
(`none`) leaves the entry unchanged, writing a value replaces it. -/
def setQueryData {α : Type} (v : Option α) (cache : Option α) : Option α :=
  match v with
  | none => cache
  | some x => some x

/-- Mirror of the `LikeInfo` interface of `src/lib/types.ts`. -/
structure LikeInfo where
  likes : Int
  isLikedByUser : Bool
deriving DecidableEq, Repr

/-- Mirror of the `FollowerInfo` interface of `src/lib/types.ts`. -/
structure FollowerInfo where
  followers : Int
  isFollowedByUser : Bool
deriving DecidableEq, Repr

/-- Mirror of the `BookmarkInfo` interface of `src/lib/types.ts`. -/
structure BookmarkInfo where
  isBookmarkedByUser : Bool
deriving DecidableEq, Repr

/-- The optimistic write of `LikeButton.onMutate`:
`likes: (previousState?.likes || 0) + (previousState?.isLikedByUser ? -1 : 1)`,
`isLikedByUser: !previousState?.isLikedByUser`. -/
def optimisticLikeInfo (previousState : Option LikeInfo) : LikeInfo :=
  { likes := (previousState.map LikeInfo.likes).getD 0 +
      (if (previousState.map LikeInfo.isLikedByUser).getD false then -1 else 1)
    isLikedByUser := !((previousState.map LikeInfo.isLikedByUser).getD false) }

/-- The optimistic write of `FollowButton.onMutate`. -/
def optimisticFollowerInfo (previousState : Option FollowerInfo) : FollowerInfo :=
  { followers := (previousState.map FollowerInfo.followers).getD 0 +
      (if (previousState.map FollowerInfo.isFollowedByUser).getD false then -1 else 1)
    isFollowedByUser := !((previousState.map FollowerInfo.isFollowedByUser).getD false) }

/-- The optimistic write of `BookmarkButton.onMutate`:
`isBookmarkedByUser: !previousState?.isBookmarkedByUser`. -/
def optimisticBookmarkInfo (previousState : Option BookmarkInfo) : BookmarkInfo :=
  { isBookmarkedByUser := !((previousState.map BookmarkInfo.isBookmarkedByUser).getD false) }

/-- `LikeButton.onMutate`: capture `previousState := getQueryData`, write the
optimistic state, and return `(new cache entry, captured context)`. -/
def likeOnMutate (cache : Option LikeInfo) : Option LikeInfo × Option LikeInfo :=
  let previousState := cache
  (setQueryData (some (optimisticLikeInfo previousState)) cache, previousState)

/-- `LikeButton.onError`: `setQueryData(queryKey, context?.previousState)`. -/
def likeOnError (context : Option LikeInfo) (cache : Option LikeInfo) : Option LikeInfo :=
  setQueryData context cache

/-- `FollowButton.onMutate`. -/
def followOnMutate (cache : Option FollowerInfo) : Option FollowerInfo × Option FollowerInfo :=
  let previousState := cache
  (setQueryData (some (optimisticFollowerInfo previousState)) cache, previousState)

/-- `FollowButton.onError`. -/
def followOnError (context : Option FollowerInfo) (cache : Option FollowerInfo) :
    Option FollowerInfo :=
  setQueryData context cache

/-- `BookmarkButton.onMutate`. -/
def bookmarkOnMutate (cache : Option BookmarkInfo) : Option BookmarkInfo × Option BookmarkInfo :=
  let previousState := cache
  (setQueryData (some (optimisticBookmarkInfo previousState)) cache, previousState)

/-- `BookmarkButton.onError`. -/
def bookmarkOnError (context : Option BookmarkInfo) (cache : Option BookmarkInfo) :
    Option BookmarkInfo :=
  setQueryData context cache

/-- One optimistic like toggle as it lands in the cache (the first component
of `likeOnMutate`). -/
def likeToggle (cache : Option LikeInfo) : Option LikeInfo :=
  (likeOnMutate cache).1

/-! ## Server-side store model (Prisma mutations of the like/bookmark routes) -/

/-- Notification types of the Prisma schema used by these handlers. -/
inductive NotificationType where
  | LIKE
  | FOLLOW
  | COMMENT
deriving DecidableEq, Repr

/-- A row of the `notifications` table as created by the like handler. -/
structure NotificationRow where
  issuerId : Nat
  recipientId : Nat
  postId : Nat
  type : NotificationType
deriving DecidableEq, Repr

/-- A row of the `posts` table (only the fields the handlers read). -/
structure PostRow where
  id : Nat
  userId : Nat
deriving DecidableEq, Repr

/-- The relational store as the like/bookmark POST handlers see it.  `likes`
and `bookmarks` hold `(userId, postId)` pairs (their compound unique key). -/
structure Store where
  posts : List PostRow
  likes : List (Nat × Nat)
  bookmarks : List (Nat × Nat)
  notifications : List NotificationRow
deriving DecidableEq, Repr

/-- `prisma.post.findUnique({ where: { id: postId } })`. -/
def findPost (s : Store) (postId : Nat) : Option PostRow :=
  s.posts.find? (fun p => p.id == postId)

/-- `upsert` on a compound-unique `(userId, postId)` table with an empty
`update: {}` branch: insert when absent, change nothing when present. -/
def upsertPair (pairs : List (Nat × Nat)) (userId postId : Nat) : List (Nat × Nat) :=
  if (userId, postId) ∈ pairs then pairs else pairs ++ [(userId, postId)]

/-- The like POST handler (`posts/[postId]/likes`): 404 leaves the store
unchanged; otherwise one transaction upserts the like and, only when the
liker is not the post owner, appends one LIKE notification. -/
def likePOST (s : Store) (loggedInUserId postId : Nat) : Store :=
  match findPost s postId with
  | none => s
  | some post =>
    { s with
      likes := upsertPair s.likes loggedInUserId postId
      notifications :=
        if loggedInUserId != post.userId then
          s.notifications ++
            [{ issuerId := loggedInUserId, recipientId := post.userId
               postId := postId, type := NotificationType.LIKE }]
        else s.notifications }

/-- The bookmark POST handler (`posts/[postId]/bookmark`): a bare upsert with
an empty update branch (the handler performs no post-existence check). -/
def bookmarkPOST (s : Store) (loggedInUserId postId : Nat) : Store :=
  { s with bookmarks := upsertPair s.bookmarks loggedInUserId postId }

/-! ## Delete-post cache reconciliation (`useDeletePostMutation.onSuccess`) -/

/-- A cached post as far as the delete updater inspects it. -/
structure FeedPost where
  id : String
deriving DecidableEq, Repr

/-- One cached `PostsPage` of an infinite query. -/
structure FeedPage where
  posts : List FeedPost
  nextCursor : Option String
deriving DecidableEq, Repr

/-- `InfiniteData<PostsPage, string | null>` as cached by react-query. -/
structure InfiniteFeed where
  pageParams : List (Option String)
  pages : List FeedPage
deriving DecidableEq, Repr

/-- The updater passed to `setQueriesData`: bail out on missing data, keep
`pageParams`, keep each page's `nextCursor`, and filter the deleted post id
out of each page's `posts`. -/
def deletePostUpdater (deletedId : String) (oldData : Option InfiniteFeed) :
    Option InfiniteFeed :=
  match oldData with
  | none => none
  | some old =>
    some
      { pageParams := old.pageParams
        pages := old.pages.map (fun page =>
          { nextCursor := page.nextCursor
            posts := page.posts.filter (fun p => p.id != deletedId) }) }

/-- React-query's query filter `{ queryKey: ["post-feed"] }`: a query matches
when the filter key is a prefix of its key. -/
def queryKeyMatches (filterKey actualKey : List String) : Bool :=
  filterKey.isPrefixOf actualKey

/-- What `setQueriesData` does to one cache entry under the
`["post-feed"]` filter: untouched unless matched; when matched, the updater
result is written through `setQueryData` (so an `undefined` result is a
no-op). -/
def deleteEntryUpdate (deletedId : String) (e : List String × Option InfiniteFeed) :
    List String × Option InfiniteFeed :=
  if queryKeyMatches ["post-feed"] e.1 then
    (e.1, setQueryData (deletePostUpdater deletedId e.2) e.2)
  else e

/-- The whole `onSuccess` cache pass over every cached query. -/
def onDeletePostSuccess (deletedId : String)
    (cache : List (List String × Option InfiniteFeed)) :
    List (List String × Option InfiniteFeed) :=
  cache.map (deleteEntryUpdate deletedId)

/-! ## Lemmas about the page fetcher and trimmer -/

theorem paginateGET_posts_def (db : List Row) (cursor : Option Nat) (ps : Nat) :
    (paginateGET db cursor ps).posts = (findManyAfter db cursor (ps + 1)).take ps := rfl

theorem paginateGET_nextCursor_def (db : List Row) (cursor : Option Nat) (ps : Nat) :
    (paginateGET db cursor ps).nextCursor =
      if ps < (findManyAfter db cursor (ps + 1)).length then
        (findManyAfter db cursor (ps + 1))[ps]?.map Row.id
      else none := rfl

theorem commentsPaginate_comments_def (db : List Row) (cursor : Option Nat) (ps : Nat) :
    (commentsPaginate db cursor ps).comments =
      if ps < (findManyBefore db cursor (ps + 1)).length then
        (findManyBefore db cursor (ps + 1)).drop 1
      else findManyBefore db cursor (ps + 1) := rfl

theorem commentsPaginate_previousCursor_def (db : List Row) (cursor : Option Nat) (ps : Nat) :
    (commentsPaginate db cursor ps).previousCursor =
      if ps < (findManyBefore db cursor (ps + 1)).length then
        (findManyBefore db cursor (ps + 1)).head?.map Row.id
      else none := rfl

/-- Under distinct primary keys, dropping rows while the id differs from the
id of the row at index `k` drops exactly the first `k` rows. -/
theorem dropWhile_ne_getElem (db : List Row) (hnd : (db.map Row.id).Nodup) :
    ∀ k, (hk : k < db.length) →
      db.dropWhile (fun r => r.id != db[k].id) = db.drop k := by
  induction db with
  | nil => intro k hk; simp at hk
  | cons a tl ih =>
    intro k hk
    have hnd' : a.id ∉ tl.map Row.id ∧ (tl.map Row.id).Nodup := by
      simpa [List.nodup_cons] using hnd
    match k with
    | 0 => simp
    | k + 1 =>
      have htl : k < tl.length := by simpa using hk
      have hmem : tl[k].id ∈ tl.map Row.id :=
        List.mem_map_of_mem Row.id (List.getElem_mem htl)
      have hne : a.id ≠ tl[k].id := fun h => hnd'.1 (h ▸ hmem)
      have hgetc : (a :: tl)[k + 1] = tl[k] := rfl
      rw [hgetc, List.dropWhile_cons, if_pos (by simpa using hne), List.drop_succ_cons]
      exact ih hnd'.2 k htl

/-- Under distinct primary keys, taking rows while the id differs from the
id of the row at index `k` takes exactly the first `k` rows. -/
theorem takeWhile_ne_getElem (db : List Row) (hnd : (db.map Row.id).Nodup) :
    ∀ k, (hk : k < db.length) →
      db.takeWhile (fun r => r.id != db[k].id) = db.take k := by
  induction db with
  | nil => intro k hk; simp at hk
  | cons a tl ih =>
    intro k hk
    have hnd' : a.id ∉ tl.map Row.id ∧ (tl.map Row.id).Nodup := by
      simpa [List.nodup_cons] using hnd
    match k with
    | 0 => simp
    | k + 1 =>
      have htl : k < tl.length := by simpa using hk
      have hmem : tl[k].id ∈ tl.map Row.id :=
        List.mem_map_of_mem Row.id (List.getElem_mem htl)
      have hne : a.id ≠ tl[k].id := fun h => hnd'.1 (h ▸ hmem)
      have hgetc : (a :: tl)[k + 1] = tl[k] := rfl
      rw [hgetc, List.takeWhile_cons, if_pos (by simpa using hne), List.take_succ_cons]
      rw [ih hnd'.2 k htl]

/-- A valid cursor at position `k` makes the positive-take fetch return the
first `n` rows of the suffix starting at `k` (inclusive of the cursor row). -/
theorem findManyAfter_cursorAt (db : List Row) (cursor : Option Nat) (k n : Nat)
    (hnd : (db.map Row.id).Nodup) (hcur : cursorAt db cursor k) :
    findManyAfter db cursor n = (db.drop k).take n := by
  rcases hcur with ⟨hc, hk⟩ | ⟨hk, hc⟩
  · subst hc; subst hk; rfl
  · rw [List.getElem?_eq_getElem hk] at hc
    subst hc
    show (db.dropWhile (fun r => r.id != db[k].id)).take n = (db.drop k).take n
    rw [dropWhile_ne_getElem db hnd k hk]

theorem paginateGET_posts (db : List Row) (cursor : Option Nat) (ps k : Nat)
    (hnd : (db.map Row.id).Nodup) (hcur : cursorAt db cursor k) :
    (paginateGET db cursor ps).posts = (db.drop k).take ps := by
  rw [paginateGET_posts_def, findManyAfter_cursorAt db cursor k (ps + 1) hnd hcur,
    List.take_take]
  congr 1
  omega

theorem paginateGET_nextCursor (db : List Row) (cursor : Option Nat) (ps k : Nat)
    (hnd : (db.map Row.id).Nodup) (hcur : cursorAt db cursor k) :
    (paginateGET db cursor ps).nextCursor = ((db.drop k).drop ps).head?.map Row.id := by
  rw [paginateGET_nextCursor_def, findManyAfter_cursorAt db cursor k (ps + 1) hnd hcur]
  by_cases h : ps < (db.drop k).length
  · rw [if_pos (by rw [List.length_take]; omega), List.head?_drop]
    congr 1
    simp [List.getElem?_take]
  · rw [if_neg (by rw [List.length_take]; omega), List.head?_drop,
      List.getElem?_eq_none (by omega)]
    rfl

/-- Cursor-chain invariant: with distinct ids, a positive page size, and
enough fuel, the chain started at position `k` flattens to the suffix of the
ordered dataset from `k` on. -/
theorem chainPages_flatten_from (db : List Row) (ps : Nat) (hps : 1 ≤ ps)
    (hnd : (db.map Row.id).Nodup) :
    ∀ fuel k cursor, db.length - k ≤ fuel → cursorAt db cursor k →
      (chainPages db ps fuel cursor).flatten = db.drop k := by
  intro fuel
  induction fuel with
  | zero =>
    intro k cursor hfuel _
    have hk : db.length ≤ k := by omega
    simp [chainPages, List.drop_eq_nil_of_le hk]
  | succ fuel ih =>
    intro k cursor hfuel hcur
    have hposts := paginateGET_posts db cursor ps k hnd hcur
    have hnext := paginateGET_nextCursor db cursor ps k hnd hcur
    rcases hN : (paginateGET db cursor ps).nextCursor with _ | c
    · -- no further page: the suffix fits in one page
      rw [hN] at hnext
      have hempty : (db.drop k).drop ps = [] := by
        rcases hdp : (db.drop k).drop ps with _ | ⟨x, xs⟩
        · rfl
        · rw [hdp] at hnext; simp at hnext
      have hlen : (db.drop k).length ≤ ps := by
        have := congrArg List.length hempty
        simp only [List.length_drop, List.length_nil] at this ⊢
        omega
      simp only [chainPages, hN, List.flatten_cons, List.flatten_nil, List.append_nil]
      rw [hposts, List.take_of_length_le hlen]
    · -- a probe row exists: recurse from position k + ps
      rw [hN] at hnext
      have hhd : ((db.drop k).drop ps).head? = db[k + ps]? := by
        rw [List.head?_drop, List.getElem?_drop]
      rw [hhd] at hnext
      have hk2 : k + ps < db.length := by
        by_contra hge
        rw [List.getElem?_eq_none (by omega)] at hnext
        simp at hnext
      rw [List.getElem?_eq_getElem hk2] at hnext
      have hcur2 : cursorAt db (some c) (k + ps) :=
        Or.inr ⟨hk2, by rw [List.getElem?_eq_getElem hk2]; simpa using hnext⟩
      have hrec := ih (k + ps) (some c) (by omega) hcur2
      simp only [chainPages, hN, List.flatten_cons]
      rw [hposts, hrec, ← List.drop_drop, List.take_append_drop]

theorem takeLast_length_le (l : List Row) (n : Nat) : (takeLast l n).length ≤ n := by
  unfold takeLast
  rw [List.length_drop]
  omega

theorem findManyBefore_length_le (db : List Row) (cursor : Option Nat) (n : Nat) :
    (findManyBefore db cursor n).length ≤ n := by
  rcases cursor with _ | c
  · exact takeLast_length_le db n
  · rcases hdw : db.dropWhile (fun r => r.id != c) with _ | ⟨r, rest⟩ <;>
      simp only [findManyBefore, hdw]
    · simp
    · exact takeLast_length_le _ n

/-- C1: starting the chain with no cursor and re-requesting with each
returned `nextCursor` until it is null, the concatenation of the pages in
fetch order is exactly the ordered dataset — each row once, no duplicates,
no omissions — for every dataset with distinct primary keys and every page
size of at least 1. -/
theorem chain_concat_reproduces_dataset (db : List Row) (ps : Nat)
    (hps : 1 ≤ ps) (hnd : (db.map Row.id).Nodup) :
    (chainPages db ps (db.length + 1) none).flatten = db := by
  have h := chainPages_flatten_from db ps hps hnd (db.length + 1) 0 none (by omega)
    (Or.inl ⟨rfl, rfl⟩)
  simpa using h

theorem chain_concat_reproduces_dataset_witness :
    1 ≤ 2 ∧ (([⟨1, 5⟩, ⟨2, 4⟩, ⟨3, 3⟩] : List Row).map Row.id).Nodup ∧
      (chainPages [⟨1, 5⟩, ⟨2, 4⟩, ⟨3, 3⟩] 2 4 none).flatten =
        [⟨1, 5⟩, ⟨2, 4⟩, ⟨3, 3⟩] :=
  ⟨by decide, by decide,
    chain_concat_reproduces_dataset [⟨1, 5⟩, ⟨2, 4⟩, ⟨3, 3⟩] 2 (by decide) (by decide)⟩

/-- C2: for a fetch at cursor position `k`, `nextCursor` is non-null iff
strictly more than `pageSize` rows match from the cursor position onward,
and it always equals the id of the first row beyond the returned page (the
probe row); the returned page itself is the next `pageSize` rows. -/
theorem nextCursor_iff_more_rows (db : List Row) (cursor : Option Nat) (ps k : Nat)
    (hnd : (db.map Row.id).Nodup) (hcur : cursorAt db cursor k) :
    ((paginateGET db cursor ps).nextCursor ≠ none ↔ ps < (db.drop k).length) ∧
    (paginateGET db cursor ps).nextCursor = ((db.drop k).drop ps).head?.map Row.id ∧
    (paginateGET db cursor ps).posts = (db.drop k).take ps := by
  refine ⟨?_, paginateGET_nextCursor db cursor ps k hnd hcur,
    paginateGET_posts db cursor ps k hnd hcur⟩
  rw [paginateGET_nextCursor db cursor ps k hnd hcur, List.head?_drop]
  have hlen : (db.drop k).length = db.length - k := List.length_drop k db
  rw [hlen]
  by_cases h : ps < db.length - k
  · rw [List.getElem?_eq_getElem (by rw [hlen]; omega)]
    simp [h]
  · rw [List.getElem?_eq_none (by rw [hlen]; omega)]
    simp [h]

theorem nextCursor_iff_more_rows_witness :
    ((paginateGET [⟨1, 9⟩, ⟨2, 8⟩, ⟨3, 7⟩] (some 2) 1).nextCursor ≠ none ↔
        1 < (([⟨1, 9⟩, ⟨2, 8⟩, ⟨3, 7⟩] : List Row).drop 1).length) ∧
      (paginateGET [⟨1, 9⟩, ⟨2, 8⟩, ⟨3, 7⟩] (some 2) 1).nextCursor =
        ((([⟨1, 9⟩, ⟨2, 8⟩, ⟨3, 7⟩] : List Row).drop 1).drop 1).head?.map Row.id ∧
      (paginateGET [⟨1, 9⟩, ⟨2, 8⟩, ⟨3, 7⟩] (some 2) 1).posts =
        (([⟨1, 9⟩, ⟨2, 8⟩, ⟨3, 7⟩] : List Row).drop 1).take 1 :=
  nextCursor_iff_more_rows [⟨1, 9⟩, ⟨2, 8⟩, ⟨3, 7⟩] (some 2) 1 1 (by decide) (by decide)

/-- C3 counterexample: invoked with a cursor, the fetch DOES contain the row
identified by the cursor: the ORM cursor is inclusive and the routes pass no
skip, so the cursor row is the first fetched row (the last one for the
negative-take comment fetch), refuting "never among the fetched rows". -/
theorem cursor_row_in_fetched_counterexample :
    ((⟨1, 10⟩ : Row) ∈ (forYouGET [⟨1, 10⟩, ⟨2, 9⟩] (some 1)).posts) ∧
      ((⟨1, 10⟩ : Row) ∈ findManyAfter [⟨1, 10⟩, ⟨2, 9⟩] (some 1) 11) ∧
      ((⟨2, 9⟩ : Row) ∈ findManyBefore [⟨1, 10⟩, ⟨2, 9⟩] (some 2) 6) := by
  decide

/-- C3 amended: with a cursor at position `k`, the fetch retrieves
`pageSize + 1` consecutive rows starting AT the cursor row, inclusively
(ending at it for the reverse-order comment feed), so the cursor row is the
first (resp. a member, the last) of the fetched rows; it is the probe row the
previous page excluded from its returned items, not a row the client has
already displayed. -/
theorem fetch_starts_at_cursor_row (db : List Row) (k ps : Nat)
    (hnd : (db.map Row.id).Nodup) (hk : k < db.length) :
    findManyAfter db (some (db[k].id)) (ps + 1) = (db.drop k).take (ps + 1) ∧
    (findManyAfter db (some (db[k].id)) (ps + 1)).head? = some db[k] ∧
    (findManyAfter db (some (db[k].id)) (ps + 1)).length = min (ps + 1) (db.length - k) ∧
    findManyBefore db (some (db[k].id)) (ps + 1) = takeLast (db.take (k + 1)) (ps + 1) ∧
    db[k] ∈ findManyBefore db (some (db[k].id)) (ps + 1) := by
  have hcur : cursorAt db (some (db[k].id)) k :=
    Or.inr ⟨hk, by rw [List.getElem?_eq_getElem hk]; rfl⟩
  have h1 := findManyAfter_cursorAt db (some (db[k].id)) k (ps + 1) hnd hcur
  have hdk : db.drop k = db[k] :: db.drop (k + 1) := List.drop_eq_getElem_cons hk
  have htk : db.take (k + 1) = db.take k ++ [db[k]] := by
    rw [List.take_succ, List.getElem?_eq_getElem hk]
    rfl
  have hdw : db.dropWhile (fun r => r.id != db[k].id) = db[k] :: db.drop (k + 1) := by
    rw [dropWhile_ne_getElem db hnd k hk]
    exact hdk
  have htw : db.takeWhile (fun r => r.id != db[k].id) = db.take k :=
    takeWhile_ne_getElem db hnd k hk
  have h4 : findManyBefore db (some (db[k].id)) (ps + 1) =
      takeLast (db.take (k + 1)) (ps + 1) := by
    simp only [findManyBefore, hdw, htw]
    rw [htk]
  refine ⟨h1, ?_, ?_, h4, ?_⟩
  · rw [h1, hdk, List.take_succ_cons]
    rfl
  · rw [h1, List.length_take, List.length_drop]
  · rw [h4]
    unfold takeLast
    have hlt : db.take k ++ [db[k]] = db.take (k + 1) := htk.symm
    have hlen : (db.take (k + 1)).length = k + 1 := by
      rw [List.length_take]
      omega
    have hm : (db.take (k + 1)).length - (ps + 1) ≤ (db.take k).length := by
      rw [hlen, List.length_take]
      omega
    rw [← hlt, List.drop_append_of_le_length (by rw [hlt]; exact hm)]
    exact List.mem_append_right _ (List.mem_singleton.mpr rfl)

theorem fetch_starts_at_cursor_row_witness :
    (([⟨1, 9⟩, ⟨2, 8⟩, ⟨3, 7⟩] : List Row).map Row.id).Nodup ∧
    1 < ([⟨1, 9⟩, ⟨2, 8⟩, ⟨3, 7⟩] : List Row).length ∧
    (findManyAfter [⟨1, 9⟩, ⟨2, 8⟩, ⟨3, 7⟩]
        (some (([⟨1, 9⟩, ⟨2, 8⟩, ⟨3, 7⟩] : List Row)[1]).id) 2 =
      (([⟨1, 9⟩, ⟨2, 8⟩, ⟨3, 7⟩] : List Row).drop 1).take 2 ∧
     (findManyAfter [⟨1, 9⟩, ⟨2, 8⟩, ⟨3, 7⟩]
        (some (([⟨1, 9⟩, ⟨2, 8⟩, ⟨3, 7⟩] : List Row)[1]).id) 2).head? =
       some (([⟨1, 9⟩, ⟨2, 8⟩, ⟨3, 7⟩] : List Row)[1]) ∧
     (findManyAfter [⟨1, 9⟩, ⟨2, 8⟩, ⟨3, 7⟩]
        (some (([⟨1, 9⟩, ⟨2, 8⟩, ⟨3, 7⟩] : List Row)[1]).id) 2).length =
       min 2 (([⟨1, 9⟩, ⟨2, 8⟩, ⟨3, 7⟩] : List Row).length - 1) ∧
     findManyBefore [⟨1, 9⟩, ⟨2, 8⟩, ⟨3, 7⟩]
        (some (([⟨1, 9⟩, ⟨2, 8⟩, ⟨3, 7⟩] : List Row)[1]).id) 2 =
       takeLast (([⟨1, 9⟩, ⟨2, 8⟩, ⟨3, 7⟩] : List Row).take 2) 2 ∧
     ([⟨1, 9⟩, ⟨2, 8⟩, ⟨3, 7⟩] : List Row)[1] ∈
       findManyBefore [⟨1, 9⟩, ⟨2, 8⟩, ⟨3, 7⟩]
        (some (([⟨1, 9⟩, ⟨2, 8⟩, ⟨3, 7⟩] : List Row)[1]).id) 2) :=
  ⟨by decide, by decide,
    fetch_starts_at_cursor_row [⟨1, 9⟩, ⟨2, 8⟩, ⟨3, 7⟩] 1 1 (by decide) (by decide)⟩

/-- C4: a single Page Result never holds more than `pageSize` items: for the
generic descending pattern, the generic comment pattern, and each of the five
endpoints at their configured page sizes. -/
theorem page_result_length_le_pageSize (db : List Row) (cursor : Option Nat) (ps : Nat) :
    (paginateGET db cursor ps).posts.length ≤ ps ∧
    (commentsPaginate db cursor ps).comments.length ≤ ps ∧
    (forYouGET db cursor).posts.length ≤ 10 ∧
    (followingGET db cursor).posts.length ≤ 10 ∧
    (bookmarkedGET db cursor).posts.length ≤ 10 ∧
    (notificationsGET db cursor).posts.length ≤ 10 ∧
    (commentsGET db cursor).comments.length ≤ 5 := by
  have hp : ∀ n, (paginateGET db cursor n).posts.length ≤ n := by
    intro n
    rw [paginateGET_posts_def, List.length_take]
    omega
  have hc : ∀ n, (commentsPaginate db cursor n).comments.length ≤ n := by
    intro n
    rw [commentsPaginate_comments_def]
    by_cases h : n < (findManyBefore db cursor (n + 1)).length
    · rw [if_pos h, List.length_drop]
      have := findManyBefore_length_le db cursor (n + 1)
      omega
    · rw [if_neg h]
      omega
  exact ⟨hp ps, hc ps, hp 10, hp 10, hp 10, hp 10, hc 5⟩

theorem commentsGET_previousCursor_def (db : List Row) (cursor : Option Nat) :
    (commentsGET db cursor).previousCursor =
      if 5 < (findManyBefore db cursor 6).length then
        (findManyBefore db cursor 6).head?.map Row.id
      else none := rfl

theorem commentsGET_comments_def (db : List Row) (cursor : Option Nat) :
    (commentsGET db cursor).comments =
      if 5 < (findManyBefore db cursor 6).length then
        (findManyBefore db cursor 6).drop 1
      else findManyBefore db cursor 6 := rfl

theorem takeLast_sublist (l : List Row) (n : Nat) : (takeLast l n).Sublist l :=
  List.drop_sublist _ _

/-- The negative-take fetch returns rows of the match set (an infix of it),
so ordering facts about the match set transfer to the fetched rows. -/
theorem findManyBefore_sublist (db : List Row) (cursor : Option Nat) (n : Nat) :
    (findManyBefore db cursor n).Sublist db := by
  rcases cursor with _ | c
  · exact takeLast_sublist db n
  · rcases hdw : db.dropWhile (fun r => r.id != c) with _ | ⟨r, rest⟩ <;>
      simp only [findManyBefore, hdw]
    · exact List.nil_sublist db
    · have hsplit : (db.takeWhile (fun x => x.id != c) ++ [r]) ++ rest = db := by
        rw [List.append_assoc, List.singleton_append, ← hdw]
        exact List.takeWhile_append_dropWhile _ _
      have h2 := List.sublist_append_left (db.takeWhile (fun x => x.id != c) ++ [r]) rest
      rw [hsplit] at h2
      exact (takeLast_sublist _ n).trans h2

/-- In a list sorted by ascending `createdAt`, the head is the oldest row. -/
theorem head_oldest_of_sorted (l : List Row)
    (hp : l.Pairwise (fun a b => a.createdAt ≤ b.createdAt)) (hd : Row)
    (hhd : l.head? = some hd) : ∀ r ∈ l, hd.createdAt ≤ r.createdAt := by
  cases l with
  | nil => simp at hhd
  | cons x t =>
    have hx : x = hd := by simpa using hhd
    subst hx
    intro r hr
    rcases List.mem_cons.mp hr with h | h
    · rw [h]
    · exact List.rel_of_pairwise_cons hp h

/-- C5: for every comments GET over the ascending comment list: when the
fetched row count exceeds the page size, the first (oldest) fetched row is
the probe — `previousCursor` is its id and it is excluded from the returned
comments; otherwise every fetched comment is returned and `previousCursor`
is null. -/
theorem comments_probe_trim (db : List Row) (cursor : Option Nat)
    (hsort : db.Pairwise (fun a b => a.createdAt ≤ b.createdAt)) :
    (5 < (findManyBefore db cursor 6).length →
      (commentsGET db cursor).previousCursor =
        (findManyBefore db cursor 6).head?.map Row.id ∧
      (commentsGET db cursor).comments = (findManyBefore db cursor 6).drop 1 ∧
      ∀ hd, (findManyBefore db cursor 6).head? = some hd →
        ∀ r ∈ findManyBefore db cursor 6, hd.createdAt ≤ r.createdAt) ∧
    ((findManyBefore db cursor 6).length ≤ 5 →
      (commentsGET db cursor).previousCursor = none ∧
      (commentsGET db cursor).comments = findManyBefore db cursor 6) := by
  have hpair : (findManyBefore db cursor 6).Pairwise
      (fun a b => a.createdAt ≤ b.createdAt) :=
    hsort.sublist (findManyBefore_sublist db cursor 6)
  constructor
  · intro hlt
    refine ⟨?_, ?_, ?_⟩
    · rw [commentsGET_previousCursor_def, if_pos hlt]
    · rw [commentsGET_comments_def, if_pos hlt]
    · intro hd hhd
      exact head_oldest_of_sorted _ hpair hd hhd
  · intro hle
    constructor
    · rw [commentsGET_previousCursor_def, if_neg (by omega)]
    · rw [commentsGET_comments_def, if_neg (by omega)]

theorem comments_probe_trim_witness :
    ([⟨1, 1⟩, ⟨2, 2⟩, ⟨3, 3⟩, ⟨4, 4⟩, ⟨5, 5⟩, ⟨6, 6⟩, ⟨7, 7⟩] : List Row).Pairwise
      (fun a b => a.createdAt ≤ b.createdAt) ∧
    (5 < (findManyBefore [⟨1, 1⟩, ⟨2, 2⟩, ⟨3, 3⟩, ⟨4, 4⟩, ⟨5, 5⟩, ⟨6, 6⟩, ⟨7, 7⟩] none 6).length →
      (commentsGET [⟨1, 1⟩, ⟨2, 2⟩, ⟨3, 3⟩, ⟨4, 4⟩, ⟨5, 5⟩, ⟨6, 6⟩, ⟨7, 7⟩] none).previousCursor =
        (findManyBefore [⟨1, 1⟩, ⟨2, 2⟩, ⟨3, 3⟩, ⟨4, 4⟩, ⟨5, 5⟩, ⟨6, 6⟩, ⟨7, 7⟩] none 6).head?.map Row.id ∧
      (commentsGET [⟨1, 1⟩, ⟨2, 2⟩, ⟨3, 3⟩, ⟨4, 4⟩, ⟨5, 5⟩, ⟨6, 6⟩, ⟨7, 7⟩] none).comments =
        (findManyBefore [⟨1, 1⟩, ⟨2, 2⟩, ⟨3, 3⟩, ⟨4, 4⟩, ⟨5, 5⟩, ⟨6, 6⟩, ⟨7, 7⟩] none 6).drop 1 ∧
      ∀ hd, (findManyBefore [⟨1, 1⟩, ⟨2, 2⟩, ⟨3, 3⟩, ⟨4, 4⟩, ⟨5, 5⟩, ⟨6, 6⟩, ⟨7, 7⟩] none 6).head? = some hd →
        ∀ r ∈ findManyBefore [⟨1, 1⟩, ⟨2, 2⟩, ⟨3, 3⟩, ⟨4, 4⟩, ⟨5, 5⟩, ⟨6, 6⟩, ⟨7, 7⟩] none 6,
          hd.createdAt ≤ r.createdAt) :=
  ⟨by decide,
    (comments_probe_trim [⟨1, 1⟩, ⟨2, 2⟩, ⟨3, 3⟩, ⟨4, 4⟩, ⟨5, 5⟩, ⟨6, 6⟩, ⟨7, 7⟩] none
      (by decide)).1⟩

/-- C6 counterexample: when the cache entry held no prior value, the rollback
write `setQueryData(queryKey, context?.previousState)` passes `undefined`,
which the cache library treats as "do not update" — so after the error
handler the entry still holds the optimistic value instead of the captured
(empty) pre-update state. -/
theorem rollback_empty_cache_counterexample :
    likeOnError (likeOnMutate none).2 (likeOnMutate none).1 ≠ none ∧
      likeOnError (likeOnMutate none).2 (likeOnMutate none).1 =
        some { likes := 1, isLikedByUser := true } := by
  decide

/-- C6 amended: whenever the prior cache entry holds a value — as it always
does in these components, whose queries are seeded with `initialData` — the
error handler restores exactly the captured prior state, for like, follow and
bookmark toggles alike, whatever value the cache holds when the failure
lands. -/
theorem rollback_restores_prior_state (s : LikeInfo) (f : FollowerInfo) (b : BookmarkInfo)
    (mid : Option LikeInfo) :
    likeOnError (likeOnMutate (some s)).2 (likeOnMutate (some s)).1 = some s ∧
    followOnError (followOnMutate (some f)).2 (followOnMutate (some f)).1 = some f ∧
    bookmarkOnError (bookmarkOnMutate (some b)).2 (bookmarkOnMutate (some b)).1 = some b ∧
    likeOnError (likeOnMutate (some s)).2 mid = some s :=
  ⟨rfl, rfl, rfl, rfl⟩

/-- C7 counterexample: three consecutive optimistic like toggles starting
from 0 likes / not liked display 1 like, not the original count 0 — an odd
number of toggles cannot restore the count. -/
theorem like_toggle_three_counterexample :
    likeToggle (likeToggle (likeToggle (some { likes := 0, isLikedByUser := false }))) =
        some { likes := 1, isLikedByUser := true } ∧
      (1 : Int) ≠ (0 : Int) := by
  decide

/-- C7 amended: the optimistic like toggle is an involution on defined cache
states: two applications (like then unlike) restore the original displayed
state, count included, and three applications equal a single one. -/
theorem like_toggle_involution (c : Int) (b : Bool) :
    likeToggle (likeToggle (some { likes := c, isLikedByUser := b })) =
        some { likes := c, isLikedByUser := b } ∧
    likeToggle (likeToggle (likeToggle (some { likes := c, isLikedByUser := b }))) =
        likeToggle (some { likes := c, isLikedByUser := b }) := by
  have h2 : likeToggle (likeToggle (some { likes := c, isLikedByUser := b })) =
      some { likes := c, isLikedByUser := b } := by
    cases b <;>
      simp [likeToggle, likeOnMutate, setQueryData, optimisticLikeInfo,
        LikeInfo.mk.injEq]
  exact ⟨h2, by rw [h2]⟩

theorem likePOST_posts_unchanged (s : Store) (u pid : Nat) :
    (likePOST s u pid).posts = s.posts := by
  rcases hf : findPost s pid with _ | post <;> simp [likePOST, hf]

theorem findPost_likePOST (s : Store) (u pid q : Nat) :
    findPost (likePOST s u pid) q = findPost s q := by
  unfold findPost
  rw [likePOST_posts_unchanged]

theorem likePOST_likes (s : Store) (u pid : Nat) (post : PostRow)
    (hf : findPost s pid = some post) :
    (likePOST s u pid).likes = upsertPair s.likes u pid := by
  simp [likePOST, hf]

/-- C9: a like POST on an existing post creates, atomically with the like
upsert, exactly one LIKE notification from the liker to the post owner —
unless the liker is the owner, in which case no notification is created. -/
theorem like_creates_notification (s : Store) (u pid : Nat) (post : PostRow)
    (hfind : findPost s pid = some post) :
    (u = post.userId → (likePOST s u pid).notifications = s.notifications) ∧
    (u ≠ post.userId →
      (likePOST s u pid).notifications =
        s.notifications ++
          [{ issuerId := u, recipientId := post.userId, postId := pid,
             type := NotificationType.LIKE }]) ∧
    (likePOST s u pid).likes = upsertPair s.likes u pid := by
  refine ⟨?_, ?_, likePOST_likes s u pid post hfind⟩
  · intro heq
    simp [likePOST, hfind, heq]
  · intro hne
    simp [likePOST, hfind, hne]

theorem like_creates_notification_witness :
    findPost (Store.mk [PostRow.mk 1 42] [] [] []) 1 = some (PostRow.mk 1 42) ∧
    ((7 : Nat) ≠ 42 ∧
      (likePOST (Store.mk [PostRow.mk 1 42] [] [] []) 7 1).notifications =
        [NotificationRow.mk 7 42 1 NotificationType.LIKE]) :=
  ⟨by decide, by decide,
    (like_creates_notification (Store.mk [PostRow.mk 1 42] [] [] []) 7 1
      (PostRow.mk 1 42) (by decide)).2.1 (by decide)⟩

theorem upsertPair_mem (pairs : List (Nat × Nat)) (u p : Nat) :
    (u, p) ∈ upsertPair pairs u p := by
  unfold upsertPair
  by_cases h : (u, p) ∈ pairs
  · rw [if_pos h]
    exact h
  · rw [if_neg h]
    exact List.mem_append_right _ (List.mem_singleton.mpr rfl)

theorem upsertPair_idem (pairs : List (Nat × Nat)) (u p : Nat) :
    upsertPair (upsertPair pairs u p) u p = upsertPair pairs u p := by
  show (if (u, p) ∈ upsertPair pairs u p then upsertPair pairs u p
        else upsertPair pairs u p ++ [(u, p)]) = upsertPair pairs u p
  rw [if_pos (upsertPair_mem pairs u p)]

/-- C10: the bookmark POST is idempotent on the whole store (twice equals
once), and repeating the like POST leaves the like rows unchanged — both
upserts have an empty update branch. -/
theorem upsert_idempotent_store (s : Store) (u pid : Nat) :
    bookmarkPOST (bookmarkPOST s u pid) u pid = bookmarkPOST s u pid ∧
    (likePOST (likePOST s u pid) u pid).likes = (likePOST s u pid).likes := by
  constructor
  · simp [bookmarkPOST, upsertPair_idem]
  · rcases hf : findPost s pid with _ | post
    · simp [likePOST, hf]
    · have h2 : findPost (likePOST s u pid) pid = some post := by
        rw [findPost_likePOST, hf]
      rw [likePOST_likes (likePOST s u pid) u pid post h2,
        likePOST_likes s u pid post hf]
      exact upsertPair_idem s.likes u pid

/-- C8: the delete-post success pass matches only cached queries whose key
begins with `"post-feed"`; every entry whose key begins with `"posts-feed"`
(the following, for-you and user-posts feeds) — indeed every unmatched entry
— is left entirely unchanged, so the deleted post remains in those cached
pages; on every matched entry only the `posts` arrays change (entries with
the deleted id are removed), while `pageParams` and every page's
`nextCursor` are untouched. -/
theorem delete_post_cache_update_frame (d : String)
    (e : List String × Option InfiniteFeed) (u : String)
    (cache : List (List String × Option InfiniteFeed)) :
    (queryKeyMatches ["post-feed"] ["posts-feed", "following"] = false ∧
      queryKeyMatches ["post-feed"] ["posts-feed", "for-you"] = false ∧
      queryKeyMatches ["post-feed"] ["posts-feed", "user-posts", u] = false) ∧
    (e.1.head? = some "posts-feed" → deleteEntryUpdate d e = e) ∧
    (queryKeyMatches ["post-feed"] e.1 = false → deleteEntryUpdate d e = e) ∧
    (∀ old : InfiniteFeed, queryKeyMatches ["post-feed"] e.1 = true → e.2 = some old →
      ∃ upd : InfiniteFeed,
        (deleteEntryUpdate d e).1 = e.1 ∧ (deleteEntryUpdate d e).2 = some upd ∧
        upd.pageParams = old.pageParams ∧
        upd.pages.length = old.pages.length ∧
        (∀ i : Nat, (upd.pages[i]?).map FeedPage.nextCursor =
          (old.pages[i]?).map FeedPage.nextCursor) ∧
        (∀ (i : Nat) (pg pgU : FeedPage),
          upd.pages[i]? = some pgU → old.pages[i]? = some pg →
          ∀ p : FeedPost, p ∈ pgU.posts ↔ p ∈ pg.posts ∧ p.id ≠ d)) ∧
    onDeletePostSuccess d cache = cache.map (deleteEntryUpdate d) := by
  have hs : (("post-feed" : String) == "posts-feed") = false := by decide
  refine ⟨⟨?_, ?_, ?_⟩, ?_, ?_, ?_, rfl⟩
  · simp [queryKeyMatches, List.isPrefixOf, hs]
  · simp [queryKeyMatches, List.isPrefixOf, hs]
  · simp [queryKeyMatches, List.isPrefixOf, hs]
  · intro hhd
    rcases e with ⟨k, v⟩
    rcases k with _ | ⟨a, t⟩
    · simp at hhd
    · have ha : a = "posts-feed" := by simpa using hhd
      subst ha
      simp [deleteEntryUpdate, queryKeyMatches, List.isPrefixOf, hs]
  · intro hmiss
    simp [deleteEntryUpdate, hmiss]
  · intro old hmatch hsome
    rcases e with ⟨k, v⟩
    simp only at hmatch hsome
    subst hsome
    refine ⟨InfiniteFeed.mk old.pageParams
      (old.pages.map (fun page => FeedPage.mk
        (page.posts.filter (fun p => p.id != d)) page.nextCursor)), ?_, ?_, rfl, ?_, ?_, ?_⟩
    · simp [deleteEntryUpdate, hmatch]
    · simp [deleteEntryUpdate, hmatch, setQueryData, deletePostUpdater]
    · simp
    · intro i
      cases hpg : old.pages[i]? <;> simp [List.getElem?_map, hpg]
    · intro i pg pgU hU hO
      simp only [List.getElem?_map, hO] at hU
      have hpg : pgU = FeedPage.mk (pg.posts.filter (fun p => p.id != d)) pg.nextCursor := by
        simpa using hU.symm
      subst hpg
      intro p
      simp [List.mem_filter]

theorem delete_post_cache_update_frame_witness :
    (deleteEntryUpdate "x" (["posts-feed", "following"],
        some (InfiniteFeed.mk [] [])) =
      (["posts-feed", "following"], some (InfiniteFeed.mk [] []))) ∧
    (∃ upd,
      (deleteEntryUpdate "x" (["post-feed", "bookmarks"],
          some (InfiniteFeed.mk [none] [FeedPage.mk [FeedPost.mk "x", FeedPost.mk "y"]
            (some "c")]))).1 = ["post-feed", "bookmarks"] ∧
      (deleteEntryUpdate "x" (["post-feed", "bookmarks"],
          some (InfiniteFeed.mk [none] [FeedPage.mk [FeedPost.mk "x", FeedPost.mk "y"]
            (some "c")]))).2 = some upd ∧
      upd.pageParams = (InfiniteFeed.mk [none] [FeedPage.mk [FeedPost.mk "x", FeedPost.mk "y"]
        (some "c")] : InfiniteFeed).pageParams ∧
      upd.pages.length = (InfiniteFeed.mk [none] [FeedPage.mk [FeedPost.mk "x", FeedPost.mk "y"]
        (some "c")] : InfiniteFeed).pages.length ∧
      (∀ i : Nat, (upd.pages[i]?).map FeedPage.nextCursor =
        ((InfiniteFeed.mk [none] [FeedPage.mk [FeedPost.mk "x", FeedPost.mk "y"]
          (some "c")] : InfiniteFeed).pages[i]?).map FeedPage.nextCursor) ∧
      (∀ (i : Nat) (pg pgU : FeedPage), upd.pages[i]? = some pgU →
        (InfiniteFeed.mk [none] [FeedPage.mk [FeedPost.mk "x", FeedPost.mk "y"]
          (some "c")] : InfiniteFeed).pages[i]? = some pg →
        ∀ p : FeedPost, p ∈ pgU.posts ↔ p ∈ pg.posts ∧ p.id ≠ "x")) :=
  ⟨(delete_post_cache_update_frame "x" (["posts-feed", "following"],
      some (InfiniteFeed.mk [] [])) "u" []).2.1 (by decide),
   by
    have h := (delete_post_cache_update_frame "x" (["post-feed", "bookmarks"],
        some (InfiniteFeed.mk [none] [FeedPage.mk [FeedPost.mk "x", FeedPost.mk "y"]
          (some "c")])) "u" []).2.2.2.1
      (InfiniteFeed.mk [none] [FeedPage.mk [FeedPost.mk "x", FeedPost.mk "y"] (some "c")])
      (by decide) rfl
    exact h⟩

end OpenLink
